import Mathlib

/-!
# Verification of the rsvici VICI client against its specification

Shallow embedding of the rsvici sources:

* `src/client/packet_type.rs` — packet type tags, `marshal` / `unmarshal`
* `src/client/packet.rs`      — `Packet`, `serialize` / `deserialize`
* `src/error.rs`              — error codes, `classify`, conversion to `io::Error`
* `src/client/listener.rs`    — the multiplexer: command / event queues,
  subscription table, inbound routing
* `src/client/mod.rs`         — `Client::stream_request` protocol sequence

Bytes are modelled as natural numbers (each `< 256` on the real wire), byte
strings as `List Nat`.  Rust strings are modelled by their UTF-8 byte
sequences.  Machine-level truncation (`name.len() as u8`) is modelled with
`% 256`.
-/

namespace Rsvici

/-- A wire byte string. -/
abbrev Bytes := List Nat

/-!
## UTF-8 model

`PacketType::unmarshal` decodes the inline name with Rust's
`String::from_utf8_lossy`, an external standard-library function.  We model it
by a UTF-8 validator (the standard table of well-formed byte sequences) and a
repair pass; on valid input the conversion is byte-for-byte the identity,
which is the only fact the development relies on.
-/

/-- Is `b` a UTF-8 continuation byte (`0x80..0xBF`)? -/
def utf8Cont (b : Nat) : Bool := decide (0x80 ≤ b ∧ b < 0xC0)

/-- Length of the well-formed UTF-8 scalar encoding starting at the head of
`bs`, or `none` if the head does not start a well-formed sequence. -/
def utf8ScalarLen (bs : Bytes) : Option Nat :=
  match bs with
  | [] => none
  | b0 :: rest =>
    if b0 < 0x80 then some 1
    else if b0 < 0xC2 then none
    else if b0 < 0xE0 then
      match rest with
      | b1 :: _ => if utf8Cont b1 then some 2 else none
      | _ => none
    else if b0 < 0xF0 then
      match rest with
      | b1 :: b2 :: _ =>
        let lo := if b0 = 0xE0 then 0xA0 else 0x80
        let hi := if b0 = 0xED then 0xA0 else 0xC0
        if decide (lo ≤ b1 ∧ b1 < hi) && utf8Cont b2 then some 3 else none
      | _ => none
    else if b0 < 0xF5 then
      match rest with
      | b1 :: b2 :: b3 :: _ =>
        let lo := if b0 = 0xF0 then 0x90 else 0x80
        let hi := if b0 = 0xF4 then 0x90 else 0xC0
        if decide (lo ≤ b1 ∧ b1 < hi) && utf8Cont b2 && utf8Cont b3 then some 4 else none
      | _ => none
    else none

/-- Fuelled UTF-8 validity check (fuel bounds the number of scalars). -/
def validUtf8Fuel : Nat → Bytes → Bool
  | _, [] => true
  | 0, _ :: _ => false
  | fuel + 1, bs =>
    match utf8ScalarLen bs with
    | some k => validUtf8Fuel fuel (bs.drop k)
    | none => false

/-- Is `bs` a well-formed UTF-8 byte sequence? -/
def validUtf8 (bs : Bytes) : Bool := validUtf8Fuel bs.length bs

/-- Fuelled lossy repair: copy well-formed scalars, replace an ill-formed
byte with the UTF-8 encoding of U+FFFD and resynchronise. -/
def utf8RepairFuel : Nat → Bytes → Bytes
  | _, [] => []
  | 0, _ :: _ => []
  | fuel + 1, bs =>
    match utf8ScalarLen bs with
    | some k => bs.take k ++ utf8RepairFuel fuel (bs.drop k)
    | none => [0xEF, 0xBF, 0xBD] ++ utf8RepairFuel fuel (bs.drop 1)

/-- Model of Rust `String::from_utf8_lossy(v).into()` at the byte level:
the identity on well-formed UTF-8, a replacement-character repair otherwise. -/
def utf8Lossy (bs : Bytes) : Bytes :=
  if validUtf8 bs then bs else utf8RepairFuel bs.length bs

/-!
## Packet types (`src/client/packet_type.rs`)
-/

/-- The eight VICI packet types.  Four carry an inline name, modelled by its
UTF-8 bytes. -/
inductive PacketType
  /-- A named request message. -/
  | cmdRequest (name : Bytes)
  /-- An unnamed response message for a request. -/
  | cmdResponse
  /-- An unnamed response if requested command is unknown. -/
  | cmdUnknown
  /-- A named event registration request. -/
  | eventRegister (name : Bytes)
  /-- A named event deregistration request. -/
  | eventUnregister (name : Bytes)
  /-- An unnamed response for successful event (de-)registration. -/
  | eventConfirm
  /-- An unnamed response if event (de-)registration failed. -/
  | eventUnknown
  /-- A named event message. -/
  | event (name : Bytes)
deriving DecidableEq

/-- `PacketType::tag` — the `EnumIndex` of the variant, declaration order. -/
def PacketType.tag : PacketType → Nat
  | .cmdRequest _ => 0
  | .cmdResponse => 1
  | .cmdUnknown => 2
  | .eventRegister _ => 3
  | .eventUnregister _ => 4
  | .eventConfirm => 5
  | .eventUnknown => 6
  | .event _ => 7

/-- The inline name of a named packet type, if any. -/
def PacketType.name? : PacketType → Option Bytes
  | .cmdRequest name => some name
  | .eventRegister name => some name
  | .eventUnregister name => some name
  | .event name => some name
  | _ => none

/-- Replace the inline name of a named variant (models assignment through the
`ref mut name` pattern in `unmarshal`); identity on unnamed variants. -/
def PacketType.withName : PacketType → Bytes → PacketType
  | .cmdRequest _, nm => .cmdRequest nm
  | .eventRegister _, nm => .eventRegister nm
  | .eventUnregister _, nm => .eventUnregister nm
  | .event _, nm => .event nm
  | pt, _ => pt

/-- `IndexEnum::index_enum` — the variant for a tag in `0..7` (named variants
carry a default empty name), `none` otherwise. -/
def PacketType.ofTag : Nat → Option PacketType
  | 0 => some (.cmdRequest [])
  | 1 => some .cmdResponse
  | 2 => some .cmdUnknown
  | 3 => some (.eventRegister [])
  | 4 => some (.eventUnregister [])
  | 5 => some .eventConfirm
  | 6 => some .eventUnknown
  | 7 => some (.event [])
  | _ => none

/-- `PacketType::marshal`: the tag byte, then for named variants the name
length truncated to a byte (`name.len() as u8`) followed by the name bytes.
Writes to a `Vec` cannot fail, so the model is total. -/
def PacketType.marshal (pt : PacketType) : Bytes :=
  match pt.name? with
  | some name => pt.tag :: (name.length % 256) :: name
  | none => [pt.tag]

/-- `PacketType::unmarshal`: split off the tag byte, look the variant up by
tag, and for named variants read a length byte and that many name bytes
(converted with `from_utf8_lossy`).  Returns the remaining input and the
packet type, or `none` for the `io::Error` cases. -/
def PacketType.unmarshal (input : Bytes) : Option (Bytes × PacketType) :=
  match input with
  | [] => none
  | t :: rest =>
    match PacketType.ofTag t with
    | none => none
    | some pt =>
      match pt.name? with
      | some _ =>
        match rest with
        | [] => none
        | nameLen :: rest2 =>
          if rest2.length < nameLen then none
          else some (rest2.drop nameLen, pt.withName (utf8Lossy (rest2.take nameLen)))
      | none => some (rest, pt)

/-!
## Packets (`src/client/packet.rs`)
-/

/-- A VICI packet: a type and an opaque payload. -/
structure Packet where
  packet_type : PacketType
  payload : Bytes
deriving DecidableEq

/-- `Packet::serialize`: the marshalled type followed by the payload. -/
def Packet.serialize (p : Packet) : Bytes :=
  p.packet_type.marshal ++ p.payload

/-- `Packet::deserialize`: unmarshal the type, the rest is the payload. -/
def Packet.deserialize (bs : Bytes) : Option Packet :=
  match PacketType.unmarshal bs with
  | none => none
  | some (buf, pt) => some ⟨pt, buf⟩

/-- The decode-failure condition exactly as the specification states it:
the input is truncated (no type byte, no name-length byte for a named type,
or fewer name bytes than announced) or the type tag is outside `0..7`. -/
def specDecodeFails (bs : Bytes) : Bool :=
  match bs with
  | [] => true
  | t :: rest =>
    if 8 ≤ t then true
    else if t = 0 ∨ t = 3 ∨ t = 4 ∨ t = 7 then
      match rest with
      | [] => true
      | n :: rest2 => decide (rest2.length < n)
    else false

/-!
## Error taxonomy (`src/error.rs`)

`io::Error` and `serde_vici::Error` payloads are external opaque values,
modelled by abstract identifiers.  The `String` payloads of the listener's
error codes are produced by `PacketType`'s `Display` implementation, which is
injective on the data the listener stores there; the model keeps the
`PacketType` value itself.
-/

/-- The variants of `ErrorCode` in `src/error.rs`. -/
inductive ErrorCode
  /-- Some IO error occurred in rsvici. -/
  | io (e : Nat)
  /-- Invalid data when serializing/deserializing payload. -/
  | invalidData (e : Nat)
  /-- Listener has already been closed. -/
  | listenerClosed
  /-- Handler has already been closed while processing a command request. -/
  | handlerClosedWhileCommandRequest
  /-- Handler has already been closed while processing a named event request. -/
  | handlerClosedWhileEventRequest (event : Bytes)
  /-- Handler has already been closed while processing the stream. -/
  | handlerClosedWhileStreaming (pt : PacketType)
  /-- Unexpected packet has been received. -/
  | unexpectedPacket (pt : PacketType)
  /-- Issued command failed. -/
  | commandFailed (errmsg : Option Bytes)
  /-- Unknown command has been requested. -/
  | unknownCmd
  /-- Unknown event has been requested. -/
  | unknownEvent (event : Bytes)
deriving DecidableEq

/-- The public `Category` enum of `src/error.rs`. -/
inductive Category
  | io
  | data
  | closed
  | cmdFailure
  | unknownCmd
  | unknownEvent
deriving DecidableEq

/-- `Error::classify` from `src/error.rs`. -/
def ErrorCode.classify : ErrorCode → Category
  | .io _ => .io
  | .invalidData _ => .data
  | .unexpectedPacket _ => .data
  | .listenerClosed => .closed
  | .handlerClosedWhileCommandRequest => .closed
  | .handlerClosedWhileEventRequest _ => .closed
  | .handlerClosedWhileStreaming _ => .closed
  | .commandFailed _ => .cmdFailure
  | .unknownCmd => .unknownCmd
  | .unknownEvent _ => .unknownEvent

/-- The `io::ErrorKind` values produced by `From<Error> for io::Error`. -/
inductive IoErrorKind
  | invalidData
  | brokenPipe
  | other
  | unsupported
deriving DecidableEq

/-- The result of converting an rsvici `Error` into an `io::Error`: either the
wrapped I/O error itself (`raw`), or a new error of a given kind wrapping the
rsvici error. -/
inductive IoError
  | raw (e : Nat)
  | ofKind (k : IoErrorKind)
deriving DecidableEq

/-- `impl From<Error> for io::Error` in `src/error.rs`: match on the category;
for `Io` return the wrapped `io::Error` (the non-`Io` code under category `Io`
is `unreachable!()`, modelled by an arbitrary default that is provably never
hit). -/
def errorToIoError (e : ErrorCode) : IoError :=
  match e.classify, e with
  | .io, .io ioe => .raw ioe
  | .io, _ => .raw 0
  | .data, _ => .ofKind .invalidData
  | .closed, _ => .ofKind .brokenPipe
  | .cmdFailure, _ => .ofKind .other
  | .unknownCmd, _ => .ofKind .unsupported
  | .unknownEvent, _ => .ofKind .unsupported

/-- The conversion table exactly as the specification states it:
`Io→Io` (the wrapped error itself), `Data→InvalidData`, `Closed→BrokenPipe`,
`CmdFailure→Other`, `UnknownCmd`/`UnknownEvent→Unsupported`. -/
def specIoErrorMap (e : ErrorCode) : IoError :=
  match e with
  | .io ioe => .raw ioe
  | _ =>
    match e.classify with
    | .data => .ofKind .invalidData
    | .closed => .ofKind .brokenPipe
    | .cmdFailure => .ofKind .other
    | _ => .ofKind .unsupported

/-!
## The multiplexer (`src/client/listener.rs`)

The listener is a single task selecting over its channels and the transport.
We embed each select arm as a pure step function
`state → input → state × effects × background error`:

* the *effects* are the externally observable actions of the step, in program
  order — delivery attempts into exchange sinks and subscription-table
  mutations;
* the background error component is the `Err` the handler returns, which the
  `start` loop forwards to the error-handler slot (the slot itself carries no
  routing state and is not modelled).

A sink (`Handler = tokio Sender`) is modelled by an identifier plus an
`alive` flag: `send` succeeds exactly when the receiver has not been dropped.
Transport writes are external I/O, modelled by an oracle `WriteOutcome`.
-/

/-- An exchange sink (`Handler`).  `alive` is false when the consumer has
dropped the receiving end, in which case `send` fails. -/
structure Handler where
  hid : Nat
  alive : Bool
deriving DecidableEq

/-- `Registration` from `src/client/listener.rs`. -/
inductive Registration
  | register
  | unregister
deriving DecidableEq

/-- A value sent into an exchange sink: `Result<Packet, Error>`. -/
inductive Delivery
  | ok (p : Packet)
  | err (e : ErrorCode)
deriving DecidableEq

/-- An observable action of one listener step, in program order. -/
inductive Effect
  /-- A `send` attempt of `d` into sink `h` (it lands iff `h.alive`). -/
  | deliver (h : Handler) (d : Delivery)
  /-- `event_subscriptions.insert(event, h)`. -/
  | subInsert (event : Bytes) (h : Handler)
  /-- `event_subscriptions.remove(&event)`. -/
  | subRemove (event : Bytes)
deriving DecidableEq

/-- Outcome of `packet.send(&mut self.session)`, the transport write. -/
inductive WriteOutcome
  | ok
  | fails (e : Nat)
deriving DecidableEq

/-- The listener's mutable state: the command FIFO, the event-registration
FIFO and the subscription table (a `HashMap` with unique keys, modelled as an
association list). -/
structure ListenerState where
  command_queue : List Handler
  event_queue : List (Bytes × Registration × Handler)
  event_subscriptions : List (Bytes × Handler)
deriving DecidableEq

/-- The state of a freshly constructed listener (`Listener::new`). -/
def listenerInit : ListenerState := ⟨[], [], []⟩

/-- `HashMap::get` on the subscription table. -/
def subsGet (subs : List (Bytes × Handler)) (event : Bytes) : Option Handler :=
  (subs.find? (fun kv => kv.1 = event)).map (fun kv => kv.2)

/-- `HashMap::insert` on the subscription table: replace the unique binding
for the key, or append a new one. -/
def subsInsert (subs : List (Bytes × Handler)) (event : Bytes) (h : Handler) :
    List (Bytes × Handler) :=
  if (subs.find? (fun kv => kv.1 = event)).isSome then
    subs.map (fun kv => if kv.1 = event then (event, h) else kv)
  else
    subs ++ [(event, h)]

/-- `HashMap::remove` on the subscription table. -/
def subsRemove (subs : List (Bytes × Handler)) (event : Bytes) :
    List (Bytes × Handler) :=
  subs.filter (fun kv => decide (kv.1 ≠ event))

/-- The result of one listener step. -/
abbrev StepResult := ListenerState × List Effect × Option ErrorCode

/-- `Listener::on_command_request`: write the packet; on success push the sink
onto the command FIFO; on failure deliver the I/O error to the sink, and if
the sink is closed return the handler-closed-while-command-request error. -/
def on_command_request (s : ListenerState) (_packet : Packet)
    (w : WriteOutcome) (h : Handler) : StepResult :=
  match w with
  | .ok => ({ s with command_queue := s.command_queue ++ [h] }, [], none)
  | .fails e =>
    (s, [.deliver h (.err (.io e))],
      if h.alive then none else some .handlerClosedWhileCommandRequest)

/-- `Listener::on_event_request`: write the packet; on success push the tuple
onto the event-registration FIFO; on failure deliver the I/O error to the
sink, and if the sink is closed return the handler-closed-while-event-request
error. -/
def on_event_request (s : ListenerState) (_packet : Packet) (event : Bytes)
    (r : Registration) (w : WriteOutcome) (h : Handler) : StepResult :=
  match w with
  | .ok => ({ s with event_queue := s.event_queue ++ [(event, r, h)] }, [], none)
  | .fails e =>
    (s, [.deliver h (.err (.io e))],
      if h.alive then none else some (.handlerClosedWhileEventRequest event))

/-- `Listener::on_response`: route one inbound read result.  A transport read
error is returned directly (`res?`); otherwise dispatch on the packet type
exactly as the `match` in the source. -/
def on_response (s : ListenerState) (res : Except Nat Packet) : StepResult :=
  match res with
  | .error e => (s, [], some (.io e))
  | .ok packet =>
    match packet.packet_type with
    | .cmdResponse =>
      match s.command_queue with
      | handler :: rest =>
        ({ s with command_queue := rest },
         [.deliver handler (.ok packet)],
         if handler.alive then none
         else some (.handlerClosedWhileStreaming packet.packet_type))
      | [] => (s, [], some (.unexpectedPacket .cmdResponse))
    | .cmdUnknown =>
      match s.command_queue with
      | handler :: rest =>
        ({ s with command_queue := rest },
         [.deliver handler (.err .unknownCmd)],
         if handler.alive then none
         else some (.handlerClosedWhileStreaming .cmdUnknown))
      | [] => (s, [], some (.unexpectedPacket .cmdUnknown))
    | .eventConfirm =>
      match s.event_queue with
      | (event, .register, handler) :: rest =>
        if handler.alive then
          ({ s with event_queue := rest,
                    event_subscriptions := subsInsert s.event_subscriptions event handler },
           [.deliver handler (.ok packet), .subInsert event handler], none)
        else
          ({ s with event_queue := rest },
           [.deliver handler (.ok packet)],
           some (.handlerClosedWhileStreaming packet.packet_type))
      | (event, .unregister, handler) :: rest =>
        ({ s with event_queue := rest,
                  event_subscriptions := subsRemove s.event_subscriptions event },
         [.subRemove event, .deliver handler (.ok packet)],
         if handler.alive then none
         else some (.handlerClosedWhileStreaming packet.packet_type))
      | [] => (s, [], some (.unexpectedPacket .eventConfirm))
    | .eventUnknown =>
      match s.event_queue with
      | (event, .register, handler) :: rest =>
        ({ s with event_queue := rest },
         [.deliver handler (.err (.unknownEvent event))],
         if handler.alive then none
         else some (.handlerClosedWhileStreaming .eventUnknown))
      | (event, .unregister, handler) :: rest =>
        ({ s with event_queue := rest,
                  event_subscriptions := subsRemove s.event_subscriptions event },
         [.subRemove event, .deliver handler (.err (.unknownEvent event))],
         if handler.alive then none
         else some (.handlerClosedWhileStreaming .eventUnknown))
      | [] => (s, [], some (.unexpectedPacket .eventUnknown))
    | .event name =>
      match subsGet s.event_subscriptions name with
      | some handler =>
        (s, [.deliver handler (.ok packet)],
         if handler.alive then none
         else some (.handlerClosedWhileStreaming packet.packet_type))
      | none => (s, [], some (.unexpectedPacket (.event name)))
    | .cmdRequest name => (s, [], some (.unexpectedPacket (.cmdRequest name)))
    | .eventRegister name => (s, [], some (.unexpectedPacket (.eventRegister name)))
    | .eventUnregister name => (s, [], some (.unexpectedPacket (.eventUnregister name)))

/-!
### Runs of the multiplexer loop

One iteration of the `select!` loop in `Listener::start` processes exactly one
input.  Installing an error handler only swaps the error-handler slot
(`continue`), which carries no routing state.
-/

/-- One input consumed by an iteration of the `select!` loop. -/
inductive MuxInput
  /-- A `(packet, handler)` from the command channel, with the transport-write
  outcome the oracle assigns to this request. -/
  | command (packet : Packet) (w : WriteOutcome) (h : Handler)
  /-- A `(packet, event, registration, handler)` from the event channel. -/
  | eventReq (packet : Packet) (event : Bytes) (r : Registration)
      (w : WriteOutcome) (h : Handler)
  /-- A new error-handler sink; replaces the slot and `continue`s. -/
  | installErrorHandler
  /-- The result of `Packet::receive` on the transport. -/
  | inbound (res : Except Nat Packet)

/-- One iteration of the `select!` loop. -/
def muxStep (s : ListenerState) : MuxInput → StepResult
  | .command packet w h => on_command_request s packet w h
  | .eventReq packet event r w h => on_event_request s packet event r w h
  | .installErrorHandler => (s, [], none)
  | .inbound res => on_response s res

/-- The listener state after consuming a list of inputs. -/
def muxRun (s : ListenerState) : List MuxInput → ListenerState
  | [] => s
  | i :: is => muxRun (muxStep s i).1 is

/-- Is `p` a terminal response for a command request
(`CMD_RESPONSE` or `CMD_UNKNOWN`)? -/
def isCmdTerminal (p : Packet) : Bool :=
  match p.packet_type with
  | .cmdResponse => true
  | .cmdUnknown => true
  | _ => false

/-- Number of command requests in `inputs` whose packet write succeeds
(those are the ones written to the wire). -/
def cmdWritten : List MuxInput → Nat
  | [] => 0
  | .command _ .ok _ :: is => cmdWritten is + 1
  | _ :: is => cmdWritten is

/-- Number of terminal command responses routed along the run from `s`:
inbound `CMD_RESPONSE`/`CMD_UNKNOWN` packets that pop a sink (the command
FIFO is non-empty when they arrive). -/
def cmdRouted (s : ListenerState) : List MuxInput → Nat
  | [] => 0
  | i :: is =>
    (match i with
     | .inbound (.ok p) =>
       if isCmdTerminal p && !s.command_queue.isEmpty then 1 else 0
     | _ => 0)
    + cmdRouted (muxStep s i).1 is

/-!
## `Client::stream_request` (`src/client/mod.rs`)

`stream_request` is an `try_stream!` block driven by what `rx.recv()` returns
at each await point.  We embed it as a function from that script to the list
of its observable actions, in program order.  The message-body codec
(`serde_vici`, external) is a parameter; a decode failure carries an opaque
error identifier.  Sends into the listener's bounded channels are assumed
delivered (their only failure mode, a vanished listener, precedes every
other action with a `ListenerClosed` error and is not claim-relevant).
-/

/-- The `Response` struct deserialized from the terminal `CMD_RESPONSE` body:
`success: Option<bool>`, `errmsg: Option<String>`. -/
structure Response where
  success : Option Bool
  errmsg : Option Bytes
deriving DecidableEq

/-- One result of awaiting `rx.recv()` on the shared sink:
`Some(Ok(packet))`, `Some(Err(e))`, or `None` (sink closed). -/
inductive RecvMsg
  | ok (p : Packet)
  | err (e : ErrorCode)
  | closed
deriving DecidableEq

/-- An observable action of the `stream_request` block, in program order. -/
inductive StreamAction (U : Type)
  /-- The `EVENT_REGISTER` packet is sent to the listener. -/
  | sendRegister
  /-- The registration confirmation was received (`Some(Ok(_))`). -/
  | regConfirmed
  /-- The `CMD_REQUEST` packet is sent to the listener. -/
  | sendCommand
  /-- The stream yields one decoded item. -/
  | yield (item : U)
  /-- The `EVENT_UNREGISTER` packet is sent to the listener. -/
  | sendUnregister
  /-- The unregistration confirmation was received (`Some(Ok(_))`). -/
  | unregConfirmed
  /-- The stream terminates with this error (`Err(e)?` in `try_stream!`). -/
  | fail (e : ErrorCode)
deriving DecidableEq

/-- The tail of `stream_request` after the consume loop captured
`cmd_response`: send `EVENT_UNREGISTER`, await its confirmation, then fail
with `CommandFailed(errmsg)` exactly when `success == Some(false)`. -/
def streamFinish (unregMsg : RecvMsg) (resp : Response) {U : Type} :
    List (StreamAction U) :=
  .sendUnregister ::
  match unregMsg with
  | .ok _ =>
    .unregConfirmed ::
    (match resp.success with
     | some false => [.fail (.commandFailed resp.errmsg)]
     | _ => [])
  | .err e => [.fail e]
  | .closed => [.fail .listenerClosed]

/-- The consume loop of `stream_request`: each received `EVENT` yields its
decoded body, the first `CMD_RESPONSE` is decoded and exits the loop into
`streamFinish`, anything else fails.  An exhausted script corresponds to the
real loop blocking forever and produces no further actions. -/
def streamConsume {U : Type} (decodeItem : Bytes → Except Nat U)
    (decodeResp : Bytes → Except Nat Response) (unregMsg : RecvMsg) :
    List RecvMsg → List (StreamAction U)
  | [] => []
  | m :: ms =>
    match m with
    | .ok p =>
      match p.packet_type with
      | .cmdResponse =>
        match decodeResp p.payload with
        | .ok resp => streamFinish unregMsg resp
        | .error e => [.fail (.invalidData e)]
      | .event _ =>
        match decodeItem p.payload with
        | .ok item => .yield item :: streamConsume decodeItem decodeResp unregMsg ms
        | .error e => [.fail (.invalidData e)]
      | pt => [.fail (.unexpectedPacket pt)]
    | .err e => [.fail e]
    | .closed => [.fail .listenerClosed]

/-- `Client::stream_request` as a function of its receive script: register and
await one confirmation, send the command request, run the consume loop, and
(inside it) finish with the unregister round-trip and the success check. -/
def stream_request {U : Type} (decodeItem : Bytes → Except Nat U)
    (decodeResp : Bytes → Except Nat Response) (regMsg : RecvMsg)
    (loopMsgs : List RecvMsg) (unregMsg : RecvMsg) : List (StreamAction U) :=
  .sendRegister ::
  match regMsg with
  | .ok _ => .regConfirmed :: .sendCommand ::
      streamConsume decodeItem decodeResp unregMsg loopMsgs
  | .err e => [.fail e]
  | .closed => [.fail .listenerClosed]

/-- Is `pt` one of the two packet types the consume loop accepts? -/
def PacketType.isStreamItem : PacketType → Bool
  | .cmdResponse => true
  | .event _ => true
  | _ => false

/-!
## Theorems
-/

/-- C8: io::Error conversion mapping — for every rsvici error value,
converting it to `io::Error` yields the wrapped I/O error itself for category
`Io`, and otherwise an `io::Error` whose kind is `InvalidData` for `Data`,
`BrokenPipe` for `Closed`, `Other` for `CmdFailure`, and `Unsupported` for
`UnknownCmd` and `UnknownEvent`: the source conversion coincides with the
specification's table on every error value. -/
theorem errorToIoError_eq_spec (e : ErrorCode) : errorToIoError e = specIoErrorMap e := by
  cases e <;> rfl

/-- C5: CMD_UNKNOWN handling — with a non-empty command FIFO, exactly the
front sink is popped (the queue length decreases by one) and the delivery to
it is `Err(UnknownCmd)`, an error classified `UnknownCmd`; if that sink is
closed a handler-closed background error is returned instead of none; with an
empty command FIFO the step returns an unexpected-packet background error,
leaves the state unchanged and delivers nothing. -/
theorem cmdUnknown_pops_one (cq : List Handler) (eq' : List (Bytes × Registration × Handler))
    (subs : List (Bytes × Handler)) (h : Handler) (body : Bytes) :
    on_response ⟨h :: cq, eq', subs⟩ (.ok ⟨.cmdUnknown, body⟩)
      = (⟨cq, eq', subs⟩, [.deliver h (.err .unknownCmd)],
         if h.alive then none else some (.handlerClosedWhileStreaming .cmdUnknown))
    ∧ (on_response ⟨h :: cq, eq', subs⟩ (.ok ⟨.cmdUnknown, body⟩)).1.command_queue.length + 1
      = (h :: cq).length
    ∧ ErrorCode.unknownCmd.classify = Category.unknownCmd
    ∧ on_response ⟨[], eq', subs⟩ (.ok ⟨.cmdUnknown, body⟩)
      = (⟨[], eq', subs⟩, [], some (.unexpectedPacket .cmdUnknown)) := by
  refine ⟨rfl, rfl, rfl, rfl⟩

/-- C4: EVENT_CONFIRM routing order — with a non-empty event-registration
FIFO the front entry is popped; for direction `Register` the confirmation is
delivered first and the name→sink mapping inserted after (so a failed
delivery to a closed sink skips the insertion and raises the
handler-closed-while-streaming background error); for direction `Unregister`
the name is removed from the subscription table first and the confirmation
delivered after (so the removal happens even when the sink is closed); with
an empty FIFO an unexpected-packet background error is returned. -/
theorem eventConfirm_routing (cq : List Handler) (eqRest : List (Bytes × Registration × Handler))
    (subs : List (Bytes × Handler)) (ev : Bytes) (h : Handler) (body : Bytes) :
    on_response ⟨cq, (ev, .register, h) :: eqRest, subs⟩ (.ok ⟨.eventConfirm, body⟩)
      = (if h.alive then
          (⟨cq, eqRest, subsInsert subs ev h⟩,
           [.deliver h (.ok ⟨.eventConfirm, body⟩), .subInsert ev h], none)
         else
          (⟨cq, eqRest, subs⟩, [.deliver h (.ok ⟨.eventConfirm, body⟩)],
           some (.handlerClosedWhileStreaming .eventConfirm)))
    ∧ on_response ⟨cq, (ev, .unregister, h) :: eqRest, subs⟩ (.ok ⟨.eventConfirm, body⟩)
      = (⟨cq, eqRest, subsRemove subs ev⟩,
         [.subRemove ev, .deliver h (.ok ⟨.eventConfirm, body⟩)],
         if h.alive then none else some (.handlerClosedWhileStreaming .eventConfirm))
    ∧ on_response ⟨cq, [], subs⟩ (.ok ⟨.eventConfirm, body⟩)
      = (⟨cq, [], subs⟩, [], some (.unexpectedPacket .eventConfirm)) := by
  refine ⟨?_, rfl, rfl⟩
  by_cases hh : h.alive <;> simp [on_response, hh]

/-- C6 (counterexample): an inbound `EVENT("log")` whose subscription-table
sink is closed raises the handler-closed-while-streaming background error,
but the table entry is NOT consumed — the name still maps to the same sink
after routing, refuting the claim that it no longer maps. -/
theorem event_closed_sink_counterexample :
    (on_response ⟨[], [], [([108, 111, 103], ⟨5, false⟩)]⟩
        (.ok ⟨.event [108, 111, 103], []⟩)).2.2
      = some (.handlerClosedWhileStreaming (.event [108, 111, 103]))
    ∧ ¬ (subsGet (on_response ⟨[], [], [([108, 111, 103], ⟨5, false⟩)]⟩
          (.ok ⟨.event [108, 111, 103], []⟩)).1.event_subscriptions [108, 111, 103]
        = none) := by
  constructor
  · rfl
  · decide

/-- C6 (amended): for every inbound `EVENT(name)` whose name maps to a closed
sink, the multiplexer raises the handler-closed-while-streaming background
error and leaves the whole state — the subscription table included —
unchanged: after routing the name still maps to that same sink. -/
theorem event_closed_sink_entry_remains (s : ListenerState) (name body : Bytes)
    (h : Handler) (hget : subsGet s.event_subscriptions name = some h)
    (hdead : h.alive = false) :
    on_response s (.ok ⟨.event name, body⟩)
      = (s, [.deliver h (.ok ⟨.event name, body⟩)],
         some (.handlerClosedWhileStreaming (.event name)))
    ∧ subsGet (on_response s (.ok ⟨.event name, body⟩)).1.event_subscriptions name
      = some h := by
  have hstep : on_response s (.ok ⟨.event name, body⟩)
      = (s, [.deliver h (.ok ⟨.event name, body⟩)],
         some (.handlerClosedWhileStreaming (.event name))) := by
    simp [on_response, hget, hdead]
  exact ⟨hstep, by rw [hstep]; exact hget⟩

/-- Witness for `event_closed_sink_entry_remains` at a concrete state. -/
theorem event_closed_sink_entry_remains_witness :
    on_response ⟨[], [], [([1], ⟨0, false⟩)]⟩ (.ok ⟨.event [1], [9]⟩)
      = (⟨[], [], [([1], ⟨0, false⟩)]⟩, [.deliver ⟨0, false⟩ (.ok ⟨.event [1], [9]⟩)],
         some (.handlerClosedWhileStreaming (.event [1])))
    ∧ subsGet (on_response ⟨[], [], [([1], ⟨0, false⟩)]⟩
        (.ok ⟨.event [1], [9]⟩)).1.event_subscriptions [1] = some ⟨0, false⟩ :=
  event_closed_sink_entry_remains ⟨[], [], [([1], ⟨0, false⟩)]⟩ [1] [9] ⟨0, false⟩
    (by decide) rfl

/-- A single listener step changes the command-FIFO length by exactly the
number of command requests written minus the number of terminal command
responses routed, from any starting state. -/
theorem muxRun_command_queue_len (is : List MuxInput) :
    ∀ s : ListenerState,
      (muxRun s is).command_queue.length + cmdRouted s is
        = s.command_queue.length + cmdWritten is := by
  induction is with
  | nil => intro s; simp [muxRun, cmdRouted, cmdWritten]
  | cons i is ih =>
    intro s
    match i with
    | .command p .ok h =>
      have := ih (muxStep s (.command p .ok h)).1
      simp [muxRun, cmdRouted, cmdWritten, muxStep, on_command_request] at *
      omega
    | .command p (.fails e) h =>
      have := ih (muxStep s (.command p (.fails e) h)).1
      simp [muxRun, cmdRouted, cmdWritten, muxStep, on_command_request] at *
      omega
    | .eventReq p ev r .ok h =>
      have := ih (muxStep s (.eventReq p ev r .ok h)).1
      simp [muxRun, cmdRouted, cmdWritten, muxStep, on_event_request] at *
      omega
    | .eventReq p ev r (.fails e) h =>
      have := ih (muxStep s (.eventReq p ev r (.fails e) h)).1
      simp [muxRun, cmdRouted, cmdWritten, muxStep, on_event_request] at *
      omega
    | .installErrorHandler =>
      have := ih s
      simp [muxRun, cmdRouted, cmdWritten, muxStep] at *
      omega
    | .inbound (.error e) =>
      have := ih s
      simp [muxRun, cmdRouted, cmdWritten, muxStep, on_response] at *
      omega
    | .inbound (.ok p) =>
      have := ih (muxStep s (.inbound (.ok p))).1
      obtain ⟨pt, body⟩ := p
      match hpt : pt with
      | .cmdResponse =>
        match hq : s.command_queue with
        | [] =>
          simp [muxRun, cmdRouted, cmdWritten, muxStep, on_response, isCmdTerminal, hq] at *
          omega
        | handler :: rest =>
          simp [muxRun, cmdRouted, cmdWritten, muxStep, on_response, isCmdTerminal, hq] at *
          omega
      | .cmdUnknown =>
        match hq : s.command_queue with
        | [] =>
          simp [muxRun, cmdRouted, cmdWritten, muxStep, on_response, isCmdTerminal, hq] at *
          omega
        | handler :: rest =>
          simp [muxRun, cmdRouted, cmdWritten, muxStep, on_response, isCmdTerminal, hq] at *
          omega
      | .eventConfirm =>
        match hq : s.event_queue with
        | [] =>
          simp [muxRun, cmdRouted, cmdWritten, muxStep, on_response, isCmdTerminal, hq] at *
          omega
        | (ev, .register, handler) :: rest =>
          by_cases hh : handler.alive <;>
            simp [muxRun, cmdRouted, cmdWritten, muxStep, on_response, isCmdTerminal, hq, hh] at * <;>
            omega
        | (ev, .unregister, handler) :: rest =>
          simp [muxRun, cmdRouted, cmdWritten, muxStep, on_response, isCmdTerminal, hq] at *
          omega
      | .eventUnknown =>
        match hq : s.event_queue with
        | [] =>
          simp [muxRun, cmdRouted, cmdWritten, muxStep, on_response, isCmdTerminal, hq] at *
          omega
        | (ev, .register, handler) :: rest =>
          simp [muxRun, cmdRouted, cmdWritten, muxStep, on_response, isCmdTerminal, hq] at *
          omega
        | (ev, .unregister, handler) :: rest =>
          simp [muxRun, cmdRouted, cmdWritten, muxStep, on_response, isCmdTerminal, hq] at *
          omega
      | .event name =>
        match hsub : subsGet s.event_subscriptions name with
        | some handler =>
          simp [muxRun, cmdRouted, cmdWritten, muxStep, on_response, isCmdTerminal, hsub] at *
          omega
        | none =>
          simp [muxRun, cmdRouted, cmdWritten, muxStep, on_response, isCmdTerminal, hsub] at *
          omega
      | .cmdRequest name =>
        simp [muxRun, cmdRouted, cmdWritten, muxStep, on_response, isCmdTerminal] at *
        omega
      | .eventRegister name =>
        simp [muxRun, cmdRouted, cmdWritten, muxStep, on_response, isCmdTerminal] at *
        omega
      | .eventUnregister name =>
        simp [muxRun, cmdRouted, cmdWritten, muxStep, on_response, isCmdTerminal] at *
        omega

/-- C1: command FIFO discipline — a command request pushes its sink onto the
command FIFO exactly when the packet write succeeds (with no delivery and no
background error); on write failure nothing is enqueued, the I/O error is
delivered to the sink, and a handler-closed-while-command-request background
error is returned exactly when the sink is closed; consequently, along every
run from the initial state, the FIFO length equals the number of command
requests written to the wire minus the number of terminal `CMD_RESPONSE` /
`CMD_UNKNOWN` responses routed. -/
theorem command_fifo_discipline (s : ListenerState) (p : Packet) (h : Handler)
    (e : Nat) (inputs : List MuxInput) :
    on_command_request s p .ok h
      = ({ s with command_queue := s.command_queue ++ [h] }, [], none)
    ∧ on_command_request s p (.fails e) h
      = (s, [.deliver h (.err (.io e))],
         if h.alive then none else some .handlerClosedWhileCommandRequest)
    ∧ (muxRun listenerInit inputs).command_queue.length
        + cmdRouted listenerInit inputs
      = cmdWritten inputs := by
  refine ⟨rfl, rfl, ?_⟩
  have := muxRun_command_queue_len inputs listenerInit
  simpa [listenerInit] using this

/-- C3: packet codec round-trip — for every packet of any of the eight types,
with a well-formed UTF-8 name of byte length at most 255 on the named types
and an arbitrary body, deserializing the serialized bytes yields the packet
back (same type, same name, same body). -/
theorem packet_roundtrip (p : Packet)
    (hname : ∀ nm, p.packet_type.name? = some nm →
      validUtf8 nm = true ∧ nm.length ≤ 255) :
    Packet.deserialize p.serialize = some p := by
  obtain ⟨pt, body⟩ := p
  cases pt with
  | cmdResponse => rfl
  | cmdUnknown => rfl
  | eventConfirm => rfl
  | eventUnknown => rfl
  | cmdRequest nm =>
    obtain ⟨hv, hlen⟩ := hname nm rfl
    have hmod : nm.length % 256 = nm.length := Nat.mod_eq_of_lt (by omega)
    have hnotlt : ¬ (nm ++ body).length < nm.length := by
      simp [List.length_append]
    simp [Packet.serialize, Packet.deserialize, PacketType.marshal, PacketType.name?,
          PacketType.tag, PacketType.unmarshal, PacketType.ofTag, PacketType.withName,
          hmod, hnotlt, utf8Lossy, hv, List.take_left, List.drop_left]
  | eventRegister nm =>
    obtain ⟨hv, hlen⟩ := hname nm rfl
    have hmod : nm.length % 256 = nm.length := Nat.mod_eq_of_lt (by omega)
    have hnotlt : ¬ (nm ++ body).length < nm.length := by
      simp [List.length_append]
    simp [Packet.serialize, Packet.deserialize, PacketType.marshal, PacketType.name?,
          PacketType.tag, PacketType.unmarshal, PacketType.ofTag, PacketType.withName,
          hmod, hnotlt, utf8Lossy, hv, List.take_left, List.drop_left]
  | eventUnregister nm =>
    obtain ⟨hv, hlen⟩ := hname nm rfl
    have hmod : nm.length % 256 = nm.length := Nat.mod_eq_of_lt (by omega)
    have hnotlt : ¬ (nm ++ body).length < nm.length := by
      simp [List.length_append]
    simp [Packet.serialize, Packet.deserialize, PacketType.marshal, PacketType.name?,
          PacketType.tag, PacketType.unmarshal, PacketType.ofTag, PacketType.withName,
          hmod, hnotlt, utf8Lossy, hv, List.take_left, List.drop_left]
  | event nm =>
    obtain ⟨hv, hlen⟩ := hname nm rfl
    have hmod : nm.length % 256 = nm.length := Nat.mod_eq_of_lt (by omega)
    have hnotlt : ¬ (nm ++ body).length < nm.length := by
      simp [List.length_append]
    simp [Packet.serialize, Packet.deserialize, PacketType.marshal, PacketType.name?,
          PacketType.tag, PacketType.unmarshal, PacketType.ofTag, PacketType.withName,
          hmod, hnotlt, utf8Lossy, hv, List.take_left, List.drop_left]

/-- Witness for `packet_roundtrip` on a concrete `CMD_REQUEST("version")`. -/
theorem packet_roundtrip_witness :
    Packet.deserialize
        (Packet.serialize ⟨.cmdRequest [118, 101, 114, 115, 105, 111, 110], [1, 2]⟩)
      = some ⟨.cmdRequest [118, 101, 114, 115, 105, 111, 110], [1, 2]⟩ :=
  packet_roundtrip _ (by
    intro nm hnm
    simp [PacketType.name?] at hnm
    subst hnm
    exact ⟨by decide, by decide⟩)

/-- C7: packet decode failure conditions — decoding returns an error exactly
when the input is truncated (no type byte, no name-length byte for a named
type, or fewer name bytes than the length byte announces) or the type tag is
outside `0..7`; on every other input decoding succeeds. -/
theorem decode_failure_iff (bs : Bytes) :
    Packet.deserialize bs = none ↔ specDecodeFails bs = true := by
  rcases bs with _ | ⟨t, rest⟩
  · simp [Packet.deserialize, PacketType.unmarshal, specDecodeFails]
  · rcases t with _ | _ | _ | _ | _ | _ | _ | _ | t
    · -- tag 0 : CMD_REQUEST, named
      rcases rest with _ | ⟨n, rest2⟩
      · simp [Packet.deserialize, PacketType.unmarshal, PacketType.ofTag,
              PacketType.name?, specDecodeFails]
      · by_cases hlt : rest2.length < n <;>
          simp [Packet.deserialize, PacketType.unmarshal, PacketType.ofTag,
                PacketType.name?, specDecodeFails, hlt]
    · -- tag 1 : CMD_RESPONSE
      simp [Packet.deserialize, PacketType.unmarshal, PacketType.ofTag,
            PacketType.name?, specDecodeFails]
    · -- tag 2 : CMD_UNKNOWN
      simp [Packet.deserialize, PacketType.unmarshal, PacketType.ofTag,
            PacketType.name?, specDecodeFails]
    · -- tag 3 : EVENT_REGISTER, named
      rcases rest with _ | ⟨n, rest2⟩
      · simp [Packet.deserialize, PacketType.unmarshal, PacketType.ofTag,
              PacketType.name?, specDecodeFails]
      · by_cases hlt : rest2.length < n <;>
          simp [Packet.deserialize, PacketType.unmarshal, PacketType.ofTag,
                PacketType.name?, specDecodeFails, hlt]
    · -- tag 4 : EVENT_UNREGISTER, named
      rcases rest with _ | ⟨n, rest2⟩
      · simp [Packet.deserialize, PacketType.unmarshal, PacketType.ofTag,
              PacketType.name?, specDecodeFails]
      · by_cases hlt : rest2.length < n <;>
          simp [Packet.deserialize, PacketType.unmarshal, PacketType.ofTag,
                PacketType.name?, specDecodeFails, hlt]
    · -- tag 5 : EVENT_CONFIRM
      simp [Packet.deserialize, PacketType.unmarshal, PacketType.ofTag,
            PacketType.name?, specDecodeFails]
    · -- tag 6 : EVENT_UNKNOWN
      simp [Packet.deserialize, PacketType.unmarshal, PacketType.ofTag,
            PacketType.name?, specDecodeFails]
    · -- tag 7 : EVENT, named
      rcases rest with _ | ⟨n, rest2⟩
      · simp [Packet.deserialize, PacketType.unmarshal, PacketType.ofTag,
              PacketType.name?, specDecodeFails]
      · by_cases hlt : rest2.length < n <;>
          simp [Packet.deserialize, PacketType.unmarshal, PacketType.ofTag,
                PacketType.name?, specDecodeFails, hlt]
    · -- tag ≥ 8
      have hof : PacketType.ofTag (t + 8) = none := rfl
      simp [Packet.deserialize, PacketType.unmarshal, hof, specDecodeFails,
            Nat.le_add_left]

/-- C9: encoding does not validate the 255-byte name limit — for a named
packet whose name has byte length at least 256, marshalling succeeds and
writes a length byte of `n % 256` followed by all `n` name bytes, and the
resulting frame does not decode back to the original packet. -/
theorem marshal_truncates_long_names (pt : PacketType) (nm body : Bytes)
    (hname : pt.name? = some nm) (hlen : 256 ≤ nm.length) :
    Packet.serialize ⟨pt, body⟩ = pt.tag :: (nm.length % 256) :: (nm ++ body)
    ∧ Packet.deserialize (Packet.serialize ⟨pt, body⟩) ≠ some ⟨pt, body⟩ := by
  have hmodlt : nm.length % 256 < 256 := Nat.mod_lt _ (by omega)
  have hnotlt : ¬ nm.length + body.length < nm.length % 256 := by omega
  cases pt with
  | cmdResponse => simp [PacketType.name?] at hname
  | cmdUnknown => simp [PacketType.name?] at hname
  | eventConfirm => simp [PacketType.name?] at hname
  | eventUnknown => simp [PacketType.name?] at hname
  | cmdRequest name =>
    simp only [PacketType.name?, Option.some.injEq] at hname
    subst hname
    refine ⟨by simp [Packet.serialize, PacketType.marshal, PacketType.name?,
      PacketType.tag], ?_⟩
    intro heq
    simp [Packet.deserialize, Packet.serialize, PacketType.marshal, PacketType.name?,
          PacketType.tag, PacketType.unmarshal, PacketType.ofTag, PacketType.withName,
          hnotlt] at heq
    have hd := congrArg List.length heq.2
    simp [List.length_drop, List.length_append] at hd
    omega
  | eventRegister name =>
    simp only [PacketType.name?, Option.some.injEq] at hname
    subst hname
    refine ⟨by simp [Packet.serialize, PacketType.marshal, PacketType.name?,
      PacketType.tag], ?_⟩
    intro heq
    simp [Packet.deserialize, Packet.serialize, PacketType.marshal, PacketType.name?,
          PacketType.tag, PacketType.unmarshal, PacketType.ofTag, PacketType.withName,
          hnotlt] at heq
    have hd := congrArg List.length heq.2
    simp [List.length_drop, List.length_append] at hd
    omega
  | eventUnregister name =>
    simp only [PacketType.name?, Option.some.injEq] at hname
    subst hname
    refine ⟨by simp [Packet.serialize, PacketType.marshal, PacketType.name?,
      PacketType.tag], ?_⟩
    intro heq
    simp [Packet.deserialize, Packet.serialize, PacketType.marshal, PacketType.name?,
          PacketType.tag, PacketType.unmarshal, PacketType.ofTag, PacketType.withName,
          hnotlt] at heq
    have hd := congrArg List.length heq.2
    simp [List.length_drop, List.length_append] at hd
    omega
  | event name =>
    simp only [PacketType.name?, Option.some.injEq] at hname
    subst hname
    refine ⟨by simp [Packet.serialize, PacketType.marshal, PacketType.name?,
      PacketType.tag], ?_⟩
    intro heq
    simp [Packet.deserialize, Packet.serialize, PacketType.marshal, PacketType.name?,
          PacketType.tag, PacketType.unmarshal, PacketType.ofTag, PacketType.withName,
          hnotlt] at heq
    have hd := congrArg List.length heq.2
    simp [List.length_drop, List.length_append] at hd
    omega

/-- Witness for `marshal_truncates_long_names` on an `EVENT` packet whose
name is 256 copies of the byte `97`. -/
theorem marshal_truncates_long_names_witness :
    Packet.serialize ⟨.event (List.replicate 256 97), []⟩
      = (PacketType.event (List.replicate 256 97)).tag
        :: ((List.replicate 256 97 : Bytes).length % 256)
        :: (List.replicate 256 97 ++ [])
    ∧ Packet.deserialize (Packet.serialize ⟨.event (List.replicate 256 97), []⟩)
      ≠ some ⟨.event (List.replicate 256 97), []⟩ :=
  marshal_truncates_long_names _ _ _ rfl (by simp only [List.length_replicate, le_refl])

/-- The consume loop over a script of decodable `EVENT` packets followed by a
decodable `CMD_RESPONSE`: one yield per event, then the finish sequence; the
messages after the first `CMD_RESPONSE` are never consumed. -/
theorem streamConsume_events {U : Type} (dI : Bytes → Except Nat U)
    (dR : Bytes → Except Nat Response) (unregMsg : RecvMsg) (en : Bytes)
    (ebs : List Bytes) (items : List U)
    (hitems : ebs.map dI = items.map Except.ok)
    (rbody : Bytes) (resp : Response) (hresp : dR rbody = .ok resp)
    (restMsgs : List RecvMsg) :
    streamConsume dI dR unregMsg
        (ebs.map (fun b => RecvMsg.ok ⟨.event en, b⟩)
          ++ RecvMsg.ok ⟨.cmdResponse, rbody⟩ :: restMsgs)
      = items.map StreamAction.yield ++ streamFinish unregMsg resp := by
  induction ebs generalizing items with
  | nil =>
    cases items with
    | nil => simp [streamConsume, hresp]
    | cons i is => simp at hitems
  | cons b bs ih =>
    cases items with
    | nil => simp at hitems
    | cons i is =>
      simp only [List.map_cons, List.cons.injEq] at hitems
      simp [streamConsume, hitems.1, ih is hitems.2]

/-- C2: `stream_request` protocol sequence — for every streamed request whose
script confirms the registration, delivers some decodable `EVENT` packets,
then a decodable `CMD_RESPONSE`, and confirms the unregistration, the
observable actions are exactly: register, one confirmation, the command
request, one yielded item per `EVENT`, then the `EVENT_UNREGISTER` round-trip
(send and confirmation), and only after that round-trip a
command-failed(errmsg) terminal error exactly when the captured response has
`success == Some(false)`; and any packet in the consume loop other than
`EVENT` or `CMD_RESPONSE` produces an unexpected-packet error. -/
theorem stream_request_sequence {U : Type} (dI : Bytes → Except Nat U)
    (dR : Bytes → Except Nat Response) (en : Bytes) (ebs : List Bytes)
    (items : List U) (hitems : ebs.map dI = items.map Except.ok)
    (rbody : Bytes) (resp : Response) (hresp : dR rbody = .ok resp)
    (restMsgs : List RecvMsg) (regPkt confirmPkt : Packet)
    (badPt : PacketType) (hbad : badPt.isStreamItem = false) (badBody : Bytes)
    (ms : List RecvMsg) (unregMsg : RecvMsg) :
    stream_request dI dR (.ok regPkt)
        (ebs.map (fun b => RecvMsg.ok ⟨.event en, b⟩)
          ++ RecvMsg.ok ⟨.cmdResponse, rbody⟩ :: restMsgs)
        (.ok confirmPkt)
      = [.sendRegister, .regConfirmed, .sendCommand]
        ++ items.map StreamAction.yield
        ++ [.sendUnregister, .unregConfirmed]
        ++ (match resp.success with
            | some false => [StreamAction.fail (.commandFailed resp.errmsg)]
            | _ => [])
    ∧ streamConsume dI dR unregMsg (RecvMsg.ok ⟨badPt, badBody⟩ :: ms)
      = [.fail (.unexpectedPacket badPt)] := by
  constructor
  · have h := streamConsume_events dI dR (.ok confirmPkt) en ebs items hitems
      rbody resp hresp restMsgs
    simp [stream_request, h, streamFinish]
  · cases badPt <;> first
      | rfl
      | simp [PacketType.isStreamItem] at hbad

/-- Witness for `stream_request_sequence`: two events of lengths 1 and 2,
a terminal response with `success = Some(false)`, and a `CMD_UNKNOWN` in the
consume loop. -/
theorem stream_request_sequence_witness :
    stream_request (fun b : Bytes => Except.ok b.length)
        (fun _ => Except.ok ⟨some false, some [97]⟩)
        (.ok ⟨.eventConfirm, []⟩)
        ([[5], [6, 7]].map (fun b => RecvMsg.ok ⟨.event [108], b⟩)
          ++ RecvMsg.ok ⟨.cmdResponse, []⟩ :: [])
        (.ok ⟨.eventConfirm, []⟩)
      = [.sendRegister, .regConfirmed, .sendCommand]
        ++ [1, 2].map StreamAction.yield
        ++ [.sendUnregister, .unregConfirmed]
        ++ [StreamAction.fail (.commandFailed (some [97]))]
    ∧ streamConsume (fun b : Bytes => Except.ok b.length)
        (fun _ => Except.ok ⟨some false, some [97]⟩)
        (.ok ⟨.eventConfirm, []⟩) (RecvMsg.ok ⟨.cmdUnknown, []⟩ :: [])
      = [.fail (.unexpectedPacket .cmdUnknown)] :=
  stream_request_sequence (fun b : Bytes => Except.ok b.length)
    (fun _ => Except.ok ⟨some false, some [97]⟩) [108] [[5], [6, 7]] [1, 2]
    rfl [] ⟨some false, some [97]⟩ rfl [] ⟨.eventConfirm, []⟩ ⟨.eventConfirm, []⟩
    .cmdUnknown rfl [] [] (.ok ⟨.eventConfirm, []⟩)

/-- `streamFinish` does not distinguish an absent `success` field from
`success = Some(true)`. -/
theorem streamFinish_none_eq_some_true {U : Type} (u : RecvMsg)
    (m1 m2 : Option Bytes) :
    streamFinish (U := U) u ⟨none, m1⟩ = streamFinish u ⟨some true, m2⟩ := by
  cases u <;> rfl

/-- C10: a terminal `CMD_RESPONSE` with no `success` field behaves exactly
like `success == Some(true)` — the whole observable sequence is unchanged if
the terminal body decoding to `{success: None}` is replaced by one decoding
to `{success: Some(true)}`, and the finish sequence after an absent `success`
is the bare unregister round-trip with no command-failed error. -/
theorem stream_success_absent {U : Type} (dI : Bytes → Except Nat U)
    (dR : Bytes → Except Nat Response) (rb1 rb2 : Bytes) (m1 m2 : Option Bytes)
    (h1 : dR rb1 = .ok ⟨none, m1⟩) (h2 : dR rb2 = .ok ⟨some true, m2⟩)
    (regPkt confirmPkt : Packet) (pre restMsgs : List RecvMsg) :
    stream_request dI dR (.ok regPkt)
        (pre ++ RecvMsg.ok ⟨.cmdResponse, rb1⟩ :: restMsgs) (.ok confirmPkt)
      = stream_request dI dR (.ok regPkt)
          (pre ++ RecvMsg.ok ⟨.cmdResponse, rb2⟩ :: restMsgs) (.ok confirmPkt)
    ∧ streamFinish (U := U) (.ok confirmPkt) ⟨none, m1⟩
      = [.sendUnregister, .unregConfirmed] := by
  refine ⟨?_, rfl⟩
  simp only [stream_request]
  have : ∀ pre' : List RecvMsg,
      streamConsume dI dR (.ok confirmPkt)
          (pre' ++ RecvMsg.ok ⟨.cmdResponse, rb1⟩ :: restMsgs)
        = streamConsume dI dR (.ok confirmPkt)
            (pre' ++ RecvMsg.ok ⟨.cmdResponse, rb2⟩ :: restMsgs) := by
    intro pre'
    induction pre' with
    | nil =>
      simp only [List.nil_append, streamConsume, h1, h2]
      exact streamFinish_none_eq_some_true _ _ _
    | cons m pre' ih =>
      cases m with
      | ok p =>
        obtain ⟨pt, pb⟩ := p
        cases pt with
        | cmdResponse => rfl
        | event name =>
          cases hdi : dI pb with
          | ok i => simp [streamConsume, hdi, ih]
          | error e => simp [streamConsume, hdi]
        | cmdRequest name => rfl
        | cmdUnknown => rfl
        | eventRegister name => rfl
        | eventUnregister name => rfl
        | eventConfirm => rfl
        | eventUnknown => rfl
      | err e => rfl
      | closed => rfl
  rw [this pre]

/-- Witness for `stream_success_absent` at a concrete script with one event. -/
theorem stream_success_absent_witness :
    stream_request (fun b : Bytes => Except.ok b.length)
        (fun b : Bytes => if b = [0] then Except.ok ⟨none, none⟩
          else Except.ok ⟨some true, none⟩)
        (.ok ⟨.eventConfirm, []⟩)
        ([RecvMsg.ok ⟨.event [108], [9]⟩] ++ RecvMsg.ok ⟨.cmdResponse, [0]⟩ :: [])
        (.ok ⟨.eventConfirm, []⟩)
      = stream_request (fun b : Bytes => Except.ok b.length)
          (fun b : Bytes => if b = [0] then Except.ok ⟨none, none⟩
            else Except.ok ⟨some true, none⟩)
          (.ok ⟨.eventConfirm, []⟩)
          ([RecvMsg.ok ⟨.event [108], [9]⟩] ++ RecvMsg.ok ⟨.cmdResponse, [1]⟩ :: [])
          (.ok ⟨.eventConfirm, []⟩)
    ∧ streamFinish (U := Nat) (.ok ⟨.eventConfirm, []⟩) ⟨none, none⟩
      = [.sendUnregister, .unregConfirmed] :=
  stream_success_absent (fun b : Bytes => Except.ok b.length)
    (fun b : Bytes => if b = [0] then Except.ok ⟨none, none⟩
      else Except.ok ⟨some true, none⟩)
    [0] [1] none none rfl rfl ⟨.eventConfirm, []⟩
    ⟨.eventConfirm, []⟩ [RecvMsg.ok ⟨.event [108], [9]⟩] []

end Rsvici
